import Mathlib

/-!
Verification development for the bug-reporter widget's capture and dispatch
core. The TypeScript sources are shallowly embedded as pure Lean functions:
browser primitives (the WHATWG URL parser, fetch, the DOM, the JS array
heap) are modelled explicitly where a claim depends on them, and every
embedded function mirrors the control flow of its source method.
-/

deriving instance DecidableEq for Except

namespace Bugs

/-! ## JavaScript string and truthiness helpers -/

/-- Model of the JavaScript `a || b` idiom on possibly-absent strings:
an absent or empty string falls through to the alternative. -/
def jsOr (a b : Option String) : Option String :=
  match a with
  | some s => if s = "" then b else some s
  | none => b

/-- Model of `a || d` where `d` is a present default string. -/
def jsOrD (a : Option String) (d : String) : String :=
  match a with
  | some s => if s = "" then d else s
  | none => d

/-- Character-list prefix test (structural, kernel-reducible). -/
def chPre : List Char → List Char → Bool
  | [], _ => true
  | _ :: _, [] => false
  | a :: as, b :: bs => a == b && chPre as bs

/-- Character-list substring containment, mirroring JS `String.includes`
(the empty needle is contained in everything). -/
def chContains (hay needle : List Char) : Bool :=
  match hay with
  | [] => needle.isEmpty
  | _ :: t => chPre needle hay || chContains t needle

/-- JS `s.includes(sub)` on the embedded strings. -/
def jsIncludes (s sub : String) : Bool :=
  chContains s.data sub.data

/-- JS `s.toLowerCase()` restricted to ASCII, which is all the embedded
policy strings use. -/
def jsToLower (s : String) : String :=
  ⟨s.data.map Char.toLower⟩

/-! ## WHATWG URL model

`sanitizeUrl` in `src/core/capture.ts` relies on the browser's `URL` and
`URLSearchParams`. We model the fragment it uses: an absolute URL splits
into scheme, host, path and an ordered query-parameter list; a string
without a parseable scheme/host fails to parse (the browser would throw).
Percent-encoding on re-serialization is elided, so theorems about query
values are stated at the decoded parameter level. -/

structure UrlObj where
  scheme : String
  host : String
  path : String
  params : List (String × String)
  deriving DecidableEq, Repr

/-- Split a character list at the first occurrence of a separator. -/
def splitAtChar (sep : Char) : List Char → List Char × Option (List Char)
  | [] => ([], none)
  | c :: t =>
    if c == sep then ([], some t)
    else
      let (pre, post) := splitAtChar sep t
      (c :: pre, post)

/-- Split a character list on every occurrence of a separator. -/
def splitAllChar (sep : Char) (l : List Char) : List (List Char) :=
  match l with
  | [] => [[]]
  | c :: t =>
    let rest := splitAllChar sep t
    if c == sep then [] :: rest
    else
      match rest with
      | [] => [[c]]
      | h :: t2 => (c :: h) :: t2

/-- Parse one `key=value` query piece (no `=` means empty value). -/
def parseParam (piece : List Char) : String × String :=
  let (k, v) := splitAtChar '=' piece
  (⟨k⟩, ⟨(v.getD [])⟩)

/-- Parse a query string into its ordered parameter list; empty pieces
between `&` separators are dropped, as `URLSearchParams` does. -/
def parseQuery (q : List Char) : List (String × String) :=
  ((splitAllChar '&' q).filter (fun p => !p.isEmpty)).map parseParam

/-- Find the position of the `://` scheme separator, returning the scheme
characters and the remainder. -/
def splitScheme : List Char → Option (List Char × List Char)
  | ':' :: '/' :: '/' :: rest => some ([], rest)
  | [] => none
  | c :: t =>
    match splitScheme t with
    | some (s, r) => some (c :: s, r)
    | none => none

/-- Model of `new URL(s)` for absolute URLs: requires a non-empty scheme
and a non-empty, space-free, bracket-free host, then splits off path and
query. Returns `none` where the browser parser would throw. -/
def parseUrl (s : String) : Option UrlObj :=
  match splitScheme s.data with
  | none => none
  | some (scheme, rest) =>
    if scheme.isEmpty then none
    else
      let (hostChars, afterHost) := splitAtChar '/' rest
      let (hostNoQ, qNoPath) := splitAtChar '?' hostChars
      if hostNoQ.isEmpty || hostNoQ.any (fun c => c == ' ' || c == '[') then none
      else
        match qNoPath with
        | some q => some ⟨⟨scheme⟩, ⟨hostNoQ⟩, "/", parseQuery q⟩
        | none =>
          match afterHost with
          | none => some ⟨⟨scheme⟩, ⟨hostNoQ⟩, "/", []⟩
          | some pathRest =>
            let (pathChars, query) := splitAtChar '?' pathRest
            some ⟨⟨scheme⟩, ⟨hostNoQ⟩, ⟨'/' :: pathChars⟩,
                  parseQuery (query.getD [])⟩

/-- Serialize a parameter list back to a query string. -/
def renderParams (ps : List (String × String)) : String :=
  String.intercalate "&" (ps.map (fun p => p.1 ++ "=" ++ p.2))

/-- Model of `URL.toString()` (percent-encoding elided). -/
def renderUrl (u : UrlObj) : String :=
  u.scheme ++ "://" ++ u.host ++ u.path ++
    (if u.params.isEmpty then "" else "?" ++ renderParams u.params)

/-- Model of `URLSearchParams.has(name)`: exact, case-sensitive key match. -/
def searchParamsHas (ps : List (String × String)) (name : String) : Bool :=
  ps.any (fun p => p.1 == name)

/-- Model of `URLSearchParams.set(name, value)`: replaces the value of the
first parameter with that exact key and removes any further ones. -/
def searchParamsSet (ps : List (String × String)) (name value : String) :
    List (String × String) :=
  match ps with
  | [] => [(name, value)]
  | (k, v) :: t =>
    if k == name then (k, value) :: t.filter (fun p => p.1 != name)
    else (k, v) :: searchParamsSet t name value

/-! ## Capture options and redaction policy (src/core/capture.ts) -/

/-- Embedding of the `CaptureOptions` interface. `excludeUrls` holds
`RegExp` values used only through `pattern.test(url)`, so each pattern is
modelled as its test predicate. -/
structure CaptureOptions where
  maxConsoleLogs : Nat
  maxNetworkRequests : Nat
  sensitiveParams : List String
  excludeUrls : List (String → Bool)
  includeRequestHeaders : Bool
  includeResponseHeaders : Bool

/-- The constructor defaults of `BugReportCapture`. -/
def defaultSensitiveParams : List String :=
  ["token", "key", "secret", "password", "auth", "authorization",
   "api-key", "apikey"]

/-- Default options installed by the `BugReportCapture` constructor. -/
def defaultCaptureOptions : CaptureOptions :=
  { maxConsoleLogs := 50
    maxNetworkRequests := 25
    sensitiveParams := defaultSensitiveParams
    excludeUrls := []
    includeRequestHeaders := false
    includeResponseHeaders := false }

/-- The query-parameter redaction loop of `BugReportCapture.sanitizeUrl`:
for each configured sensitive parameter, if a query parameter with
exactly that key is present, set its value to the redaction marker. -/
def redactParams (sensitiveParams : List String)
    (ps : List (String × String)) : List (String × String) :=
  sensitiveParams.foldl
    (fun acc param =>
      if searchParamsHas acc param then searchParamsSet acc param "[REDACTED]"
      else acc)
    ps

/-- Embedding of `BugReportCapture.sanitizeUrl`: parse the URL, redact
the sensitive query parameters, re-serialize. A parse failure returns
the input unchanged (the `catch` branch). -/
def sanitizeUrl (sensitiveParams : List String) (url : String) : String :=
  match parseUrl url with
  | none => url
  | some u => renderUrl { u with params := redactParams sensitiveParams u.params }

/-- Embedding of `BugReportCapture.shouldExcludeUrl`. -/
def shouldExcludeUrl (opts : CaptureOptions) (url : String) : Bool :=
  opts.excludeUrls.any (fun pat => pat url)

/-- Embedding of `BugReportCapture.isSensitiveHeader`. Note that the two
hardcoded checks for `authorization` and `cookie` sit inside the
`some(...)` callback, so they only fire when `sensitiveParams` is
non-empty. -/
def isSensitiveHeader (sensitiveParams : List String) (name : String) : Bool :=
  let lowerName := jsToLower name
  sensitiveParams.any (fun param =>
    jsIncludes lowerName (jsToLower param) || lowerName == "authorization" ||
      lowerName == "cookie")

/-- Embedding of `BugReportCapture.extractHeaders` on the plain-object
form: keep only non-sensitive headers, and return `undefined` when
nothing survives. -/
def extractHeaders (sensitiveParams : List String)
    (headers : List (String × String)) : Option (List (String × String)) :=
  let result := headers.filter (fun h => !isSensitiveHeader sensitiveParams h.1)
  if result.length > 0 then some result else none

/-- Embedding of `BugReportCapture.headersToObject`: keep only
non-sensitive headers (no emptiness check on this path). -/
def headersToObject (sensitiveParams : List String)
    (headers : List (String × String)) : List (String × String) :=
  headers.filter (fun h => !isSensitiveHeader sensitiveParams h.1)

/-! ## Ring buffers (addConsoleLog / addNetworkRequest) -/

/-- Embedding of `ConsoleLogEntry` (`args` elided: the buffer functions
never inspect it). -/
structure ConsoleLogEntry where
  timestamp : Nat
  level : String
  message : String
  source : Option String
  deriving DecidableEq, Repr

/-- Embedding of `NetworkRequestEntry`. -/
structure NetworkRequestEntry where
  timestamp : Nat
  method : String
  url : String
  status : Option Nat
  duration : Option Nat
  size : Option Nat
  requestHeaders : Option (List (String × String))
  responseHeaders : Option (List (String × String))
  error : Option String
  deriving DecidableEq, Repr

/-- Model of JS `arr.slice(-n)`: the last `n` elements — except that
`slice(-0)` is `slice(0)`, the whole array. -/
def jsSliceLast (n : Nat) (l : List α) : List α :=
  if n = 0 then l else l.drop (l.length - n)

/-- Embedding of `BugReportCapture.addConsoleLog`: push, then keep only
the last `maxConsoleLogs` entries via `slice(-max)`. -/
def addConsoleLog (maxConsoleLogs : Nat) (logs : List ConsoleLogEntry)
    (entry : ConsoleLogEntry) : List ConsoleLogEntry :=
  let logs := logs ++ [entry]
  if logs.length > maxConsoleLogs then jsSliceLast maxConsoleLogs logs
  else logs

/-- Embedding of `BugReportCapture.addNetworkRequest`: identical shape
over the network buffer. -/
def addNetworkRequest (maxNetworkRequests : Nat)
    (requests : List NetworkRequestEntry) (request : NetworkRequestEntry) :
    List NetworkRequestEntry :=
  let requests := requests ++ [request]
  if requests.length > maxNetworkRequests then
    jsSliceLast maxNetworkRequests requests
  else requests

/-! ## Screenshot acquisition (captureScreenshot)

The DOM is modelled as the list of elements `querySelectorAll` would
visit, each carrying whether it matches the combined exclusion selector
and its current inline `display` value. The raster step (`html2canvas`)
either produces a canvas or throws; both branches of the source `try` are
embedded. -/

structure DomElem where
  excluded : Bool
  display : String
  deriving DecidableEq, Repr

/-- Embedding of `BugReportCapture.captureScreenshot` acting on the
modelled DOM: record each excluded element's prior display value, hide it
with `display: none`, run the raster capture, and — only on the success
path, as in the source `try` block — restore each hidden element to
`originalStyles.get(el) || ''`. The `catch` branch logs and returns
`undefined` without touching the elements. -/
def captureScreenshot (dom : List DomElem) (rasterOk : Bool) :
    Option String × List DomElem :=
  let originalStyles := dom.map (·.display)
  let hidden := dom.map (fun el =>
    if el.excluded then { el with display := "none" } else el)
  if rasterOk then
    let restored := (hidden.zip originalStyles).map (fun p =>
      if p.1.excluded then
        { p.1 with display := if p.2 = "" then "" else p.2 }
      else p.1)
    (some "data:image/png;base64", restored)
  else
    (none, hidden)

/-! ## HTTP layer, retries and destination adapters
(src/integrations/base.ts, src/integrations/webhook.ts)

A fetch outcome is either a thrown network error (carrying its message)
or an `HttpResponse`; a response carries `ok`, `status`, `statusText` and
the outcome of `response.json()` (which may itself throw). The network is
modelled as a function from the attempt index to that attempt's outcome,
so call counts and backoff delays are observable. -/

/-- The JSON shapes the adapters read from destination responses, with
`none` for absent fields. -/
structure RespJson where
  success : Option Bool := none
  id : Option String := none
  issueId : Option String := none
  ticketId : Option String := none
  url : Option String := none
  link : Option String := none
  issueUrl : Option String := none
  message : Option String := none
  error : Option String := none
  deriving DecidableEq, Repr

/-- Model of a settled `fetch` `Response`. `jsonResult` is the behavior
of `response.json()`: parsed body, or the message of the thrown parse
error. -/
structure HttpResponse where
  ok : Bool
  status : Nat
  statusText : String
  jsonResult : Except String RespJson
  deriving DecidableEq, Repr

/-- One attempt of the underlying `fetch`: a thrown error message or a
settled response. -/
abbrev FetchOutcome := Except String HttpResponse

/-- Result of the `makeRequest` loop: the returned response or the
finally-thrown error, the number of underlying calls made, and the list
of backoff delays (in ms) awaited between attempts. -/
structure RequestTrace where
  result : Except String HttpResponse
  calls : Nat
  delays : List Nat
  deriving DecidableEq, Repr

/-- One iteration body of `BaseIntegration.makeRequest`'s `try`: a
response with `!response.ok` is turned into a thrown
`HTTP <status>: <statusText>` error. -/
def attemptOutcome (o : FetchOutcome) : FetchOutcome :=
  match o with
  | .ok resp =>
    if resp.ok then .ok resp
    else .error ("HTTP " ++ toString resp.status ++ ": " ++ resp.statusText)
  | .error e => .error e

/-- The retry loop of `BaseIntegration.makeRequest`: attempt `i`, and on
failure with attempts remaining, await `2^i * 1000` ms and continue; the
last failure's error is rethrown after the loop. -/
def makeRequestGo (responder : Nat → FetchOutcome) (i fuel : Nat) :
    RequestTrace :=
  match fuel with
  | 0 => ⟨.error "Request failed after retries", 0, []⟩
  | fuel' + 1 =>
    match attemptOutcome (responder i) with
    | .ok resp => ⟨.ok resp, 1, []⟩
    | .error e =>
      match fuel' with
      | 0 => ⟨.error e, 1, []⟩
      | _ + 1 =>
        let rest := makeRequestGo responder (i + 1) fuel'
        ⟨rest.result, rest.calls + 1, (2 ^ i * 1000) :: rest.delays⟩

/-- Embedding of `BaseIntegration.makeRequest` with its configured retry
count (source default 3). -/
def makeRequest (responder : Nat → FetchOutcome) (retries : Nat := 3) :
    RequestTrace :=
  makeRequestGo responder 0 retries

/-- Embedding of the `SubmissionResponse` result shape. -/
structure SubmissionResponse where
  success : Bool
  issueId : Option String := none
  issueUrl : Option String := none
  message : Option String := none
  error : Option String := none
  deriving DecidableEq, Repr

/-- Embedding of `BaseIntegration.submitViaProxy`: POST the report to the
relay endpoint through `makeRequest` (default 3 retries); a thrown error
— network, HTTP, or JSON parse — is caught into an error result; a parsed
body without a truthy `success` is an error result carrying
`result.error || 'Proxy endpoint returned error'`; otherwise the relay's
ids are normalized into a success result. -/
def submitViaProxy (responder : Nat → FetchOutcome) : SubmissionResponse :=
  match (makeRequest responder).result with
  | .error e => { success := false, error := some e }
  | .ok resp =>
    match resp.jsonResult with
    | .error e => { success := false, error := some e }
    | .ok j =>
      match j.success with
      | some true =>
        { success := true
          issueId := j.issueId
          issueUrl := j.issueUrl
          message := jsOr j.message (some "Report submitted successfully") }
      | _ => { success := false
               error := jsOr j.error (some "Proxy endpoint returned error") }

/-- Embedding of the direct-mode body of `WebhookIntegration.submit`:
`makeRequest` with `config.retries || 3`; on a returned response the body
is parsed with `.catch(() => ({}))`, and the result is always a success
whose ids fall through the `||` chains; a thrown error is caught into an
error result. -/
def webhookSubmitDirect (responder : Nat → FetchOutcome) (retries : Nat) :
    SubmissionResponse :=
  match (makeRequest responder retries).result with
  | .error e => { success := false, error := some e }
  | .ok resp =>
    let j := match resp.jsonResult with
      | .ok j => j
      | .error _ => {}
    { success := true
      issueId := jsOr j.id (jsOr j.issueId j.ticketId)
      issueUrl := jsOr j.url (jsOr j.link j.issueUrl)
      message :=
        some (jsOrD j.message "Bug report submitted successfully via webhook") }

/-! ## Submission dispatcher (BugReporter.handleSubmit)

The dispatcher builds one promise per configured integration, awaits
`Promise.allSettled`, and inspects the settled outcomes. A settled
outcome is either a fulfilled `SubmissionResponse` or a rejection
carrying an optional reason message (`result.reason?.message`). -/

inductive Settled where
  | fulfilled : SubmissionResponse → Settled
  | rejected : Option String → Settled
  deriving DecidableEq, Repr

/-- A fulfilled outcome whose value reports success (the filter in
`handleSubmit`). -/
def isSuccessful : Settled → Bool
  | .fulfilled v => v.success
  | .rejected _ => false

/-- The per-destination failure message aggregated when everything
failed: `reason?.message || 'Unknown error'` for rejections,
`value.error || 'Submission failed'` for fulfilled failures. -/
def settledErrorMessage : Settled → String
  | .rejected m => jsOrD m "Unknown error"
  | .fulfilled v => jsOrD v.error "Submission failed"

/-- Embedding of the dispatch core of `BugReporter.handleSubmit`: no
configured integration is an immediate failure; otherwise overall success
holds exactly when some settled outcome is a fulfilled success, the first
such outcome being surfaced; when all failed, the thrown error aggregates
every destination's failure message. -/
def dispatch (results : List Settled) : Except String SubmissionResponse :=
  if results.length = 0 then .error "No integrations configured"
  else
    match results.find? isSuccessful with
    | some (.fulfilled v) => .ok v
    | _ =>
      .error ("All integrations failed: " ++
        String.intercalate ", " (results.map settledErrorMessage))

/-! ## Fetch interceptor (interceptNetworkRequests, fetch wrapper)

The wrapper observes one call: its URL, method, settled outcome, start
time and duration, and the already-extracted request headers. It returns
the original outcome unchanged and the network buffer after any
recording. -/

/-- Model of `getResponseSize`: the parsed `content-length` response
header, when present. -/
structure FetchCall where
  url : String
  method : String
  outcome : FetchOutcome
  startTime : Nat
  duration : Nat
  requestHeadersRaw : Option (List (String × String))
  responseHeadersRaw : List (String × String)
  contentLength : Option Nat
  deriving DecidableEq, Repr

/-- Embedding of the `window.fetch` wrapper installed by
`interceptNetworkRequests`: excluded URLs pass through unobserved; a
settled response is recorded with its status, duration, size and
filtered headers; a thrown error is recorded with status 0 and the error
message, then rethrown unchanged. -/
def wrappedFetch (opts : CaptureOptions) (buffer : List NetworkRequestEntry)
    (call : FetchCall) : FetchOutcome × List NetworkRequestEntry :=
  if shouldExcludeUrl opts call.url then (call.outcome, buffer)
  else
    let requestHeaders :=
      if opts.includeRequestHeaders then
        match call.requestHeadersRaw with
        | some hs => extractHeaders opts.sensitiveParams hs
        | none => none
      else none
    match call.outcome with
    | .ok resp =>
      let responseHeaders :=
        if opts.includeResponseHeaders then
          some (headersToObject opts.sensitiveParams call.responseHeadersRaw)
        else none
      (.ok resp,
       addNetworkRequest opts.maxNetworkRequests buffer
         { timestamp := call.startTime
           method := call.method
           url := sanitizeUrl opts.sensitiveParams call.url
           status := some resp.status
           duration := some call.duration
           size := call.contentLength
           requestHeaders := requestHeaders
           responseHeaders := responseHeaders
           error := none })
    | .error e =>
      (.error e,
       addNetworkRequest opts.maxNetworkRequests buffer
         { timestamp := call.startTime
           method := call.method
           url := sanitizeUrl opts.sensitiveParams call.url
           status := some 0
           duration := some call.duration
           size := none
           requestHeaders := requestHeaders
           responseHeaders := none
           error := some e })

/-! ## JS array heap and defensive copies
(getConsoleLogs / getNetworkRequests / captureReport)

To state the aliasing claim, JS arrays are modelled as cells in an
explicit heap addressed by allocation order; the capture session object
holds a reference to each live buffer. `[...arr]` allocates a fresh cell
holding a copy; `arr.push` mutates the cell in place;
`this.x = arr.slice(...)` allocates a fresh cell and redirects the
field's reference. -/

abbrev HRef := Nat

abbrev Heap (α : Type) := List (List α)

/-- Allocate a fresh array cell, returning the new heap and reference. -/
def heapAlloc (h : Heap α) (v : List α) : Heap α × HRef :=
  (h ++ [v], h.length)

/-- Read an array cell. -/
def heapRead (h : Heap α) (r : HRef) : List α :=
  (h.get? r).getD []

/-- Overwrite an array cell in place. -/
def heapWrite (h : Heap α) (r : HRef) (v : List α) : Heap α :=
  h.set r v

/-- The heap-level state of one `BugReportCapture` buffer: the array heap
and the object field's current reference. -/
structure BufferState (α : Type) where
  heap : Heap α
  ref : HRef

/-- Heap-level embedding of `getConsoleLogs` / `getNetworkRequests`:
`[...this.buffer]` allocates a fresh copy and returns a reference to it,
leaving the internal reference untouched. -/
def getBufferCopy (s : BufferState α) : HRef × BufferState α :=
  let v := heapRead s.heap s.ref
  let (h', r) := heapAlloc s.heap v
  (r, { heap := h', ref := s.ref })

/-- Heap-level embedding of `addConsoleLog` / `addNetworkRequest`:
`push` mutates the live cell; when over capacity, `slice(-max)` allocates
a fresh trimmed array and the field is redirected to it. -/
def pushBuffer (maxN : Nat) (s : BufferState α) (entry : α) : BufferState α :=
  let arr := heapRead s.heap s.ref ++ [entry]
  let h1 := heapWrite s.heap s.ref arr
  if arr.length > maxN then
    let (h2, r) := heapAlloc h1 (jsSliceLast maxN arr)
    { heap := h2, ref := r }
  else
    { heap := h1, ref := s.ref }

/-- Heap-level embedding of the buffer snapshot taken by
`captureReport`: `[...this.buffer]` embedded into the report, modelled as
the reference of the freshly allocated copy. -/
def captureReportSnapshot (s : BufferState α) : HRef × BufferState α :=
  getBufferCopy s

/-! ## Concrete sample values used by witnesses and counterexamples -/

/-- A settled 4xx destination response with an empty JSON body. -/
def resp404 : HttpResponse := ⟨false, 404, "Not Found", .ok {}⟩

/-- A settled 2xx destination response with an empty JSON body. -/
def respOkEmpty : HttpResponse := ⟨true, 200, "OK", .ok {}⟩

/-- A settled 2xx destination response whose body fails to parse as
JSON. -/
def respOkMalformed : HttpResponse :=
  ⟨true, 200, "OK", .error "Unexpected token < in JSON"⟩

/-- A sample console log entry. -/
def sampleLogEntry : ConsoleLogEntry := ⟨0, "log", "hello", none⟩

/-- A sample network request entry. -/
def sampleNetEntry : NetworkRequestEntry :=
  { timestamp := 0
    method := "GET"
    url := "u"
    status := some 200
    duration := some 1
    size := none
    requestHeaders := none
    responseHeaders := none
    error := none }

/-- A fetch call that fails at the network layer. -/
def failingFetchCall : FetchCall :=
  { url := "https://api.example.com/data"
    method := "GET"
    outcome := .error "Failed to fetch"
    startTime := 10
    duration := 25
    requestHeadersRaw := none
    responseHeadersRaw := []
    contentLength := none }

/-- Capture options with an empty sensitive-parameter list and response
header recording enabled. -/
def emptyListOpts : CaptureOptions :=
  { defaultCaptureOptions with
    sensitiveParams := []
    includeResponseHeaders := true }

/-- A fetch call whose response carries `Cookie` and `Authorization`
headers. -/
def cookieResponseCall : FetchCall :=
  { url := "https://h/p"
    method := "GET"
    outcome := .ok respOkEmpty
    startTime := 0
    duration := 5
    requestHeadersRaw := none
    responseHeadersRaw := [("Cookie", "secret"), ("Authorization", "Bearer t")]
    contentLength := none }

/-! # Theorems -/

/-- C2: the claim asserts that a ring buffer with configured capacity K
never ends up longer than K. The code enforces the cap with
`slice(-max)`, and JS `slice(-0)` is `slice(0)`, the whole array, so
with capacity 0 — the configuration shipped by the repository's own
`privacy()` preset (`maxConsoleLogs: 0`) — a push is retained and the
buffer exceeds its capacity, contradicting the source's own comment
`Keep only the last N logs`. This theorem evaluates the code at the
failing input: capacity 0, one push. -/
theorem addConsoleLog_capacity_zero_not_enforced :
    addConsoleLog 0 [] sampleLogEntry = [sampleLogEntry] ∧
    (addConsoleLog 0 [] sampleLogEntry).length = 1 ∧
    addNetworkRequest 0 [] sampleNetEntry = [sampleNetEntry] := by
  decide

/-- C3: the claim asserts that every element hidden for the screenshot
has its original display value restored whether the raster capture
succeeds or throws. The restoration loop sits inside the `try` block
after the `html2canvas` await, not in a `finally`, so when the raster
capture throws, the `catch` returns `undefined` with the element still
at `display: none`. This theorem evaluates the code at the failing
input (one excluded element with prior display `block` and a throwing
raster capture) and contrasts it with the succeeding run, where the
value is restored exactly. -/
theorem captureScreenshot_failure_skips_restore :
    captureScreenshot [⟨true, "block"⟩] false = (none, [⟨true, "none"⟩]) ∧
    captureScreenshot [⟨true, "block"⟩] true =
      (some "data:image/png;base64", [⟨true, "block"⟩]) := by
  decide

/-- C6: with the default policy, sanitizing
`https://x/y?token=abc&data=safe` replaces the `token` value with the
redaction marker and leaves `data=safe` untouched (stated both on the
rendered URL of the model and on its re-parsed parameter list), and any
input string that fails to parse as a URL is returned unchanged. -/
theorem sanitizeUrl_example_and_fail_open :
    sanitizeUrl defaultSensitiveParams "https://x/y?token=abc&data=safe" =
      "https://x/y?token=[REDACTED]&data=safe" ∧
    (parseUrl (sanitizeUrl defaultSensitiveParams
        "https://x/y?token=abc&data=safe")).map UrlObj.params =
      some [("token", "[REDACTED]"), ("data", "safe")] ∧
    ∀ (sensitiveParams : List String) (s : String),
      parseUrl s = none → sanitizeUrl sensitiveParams s = s := by
  refine ⟨by decide, by decide, ?_⟩
  intro sensitiveParams s h
  simp [sanitizeUrl, h]

/-- Witness for C6: `http://` has no host, fails to parse, and is
returned unchanged. -/
theorem sanitizeUrl_example_and_fail_open_witness :
    sanitizeUrl defaultSensitiveParams "http://" = "http://" :=
  sanitizeUrl_example_and_fail_open.2.2 defaultSensitiveParams "http://"
    (by decide)

/-- C7: with 3 configured retries, an underlying call that fails on the
first two attempts (network error or non-ok response alike) and settles
successfully on the third yields a successful request after exactly 3
underlying calls, with backoff delays of 1000 ms after the first failure
and 2000 ms after the second, and the webhook submission built on it
reports success. -/
theorem makeRequest_two_failures_then_success (responder : Nat → FetchOutcome)
    (e₁ e₂ : String) (resp : HttpResponse)
    (h0 : attemptOutcome (responder 0) = .error e₁)
    (h1 : attemptOutcome (responder 1) = .error e₂)
    (h2 : attemptOutcome (responder 2) = .ok resp) :
    makeRequest responder 3 = ⟨.ok resp, 3, [1000, 2000]⟩ ∧
    (webhookSubmitDirect responder 3).success = true := by
  have hmr : makeRequest responder 3 = ⟨.ok resp, 3, [1000, 2000]⟩ := by
    show makeRequestGo responder 0 3 = _
    simp only [makeRequestGo, h0, h1, h2]
    norm_num
  refine ⟨hmr, ?_⟩
  simp [webhookSubmitDirect, hmr]

/-- Witness for C7: a concrete responder that throws a network error on
attempts 0 and 1 and settles with a 2xx response on attempt 2. -/
theorem makeRequest_two_failures_then_success_witness :
    makeRequest (fun i => if i < 2 then .error "network error"
      else .ok respOkEmpty) 3 = ⟨.ok respOkEmpty, 3, [1000, 2000]⟩ ∧
    (webhookSubmitDirect (fun i => if i < 2 then .error "network error"
      else .ok respOkEmpty) 3).success = true :=
  makeRequest_two_failures_then_success _ "network error" "network error"
    respOkEmpty (by decide) (by decide) (by decide)

/-- C1: the dispatch core of `handleSubmit` over the settled outcomes of
every configured destination: an empty configuration set fails with the
no-integrations error; for a non-empty set the overall result is a
success exactly when at least one settled outcome is a fulfilled success;
when every destination failed, the overall result is a failure
aggregating one failure message per destination; and the surfaced
canonical result is the first successful destination's response. -/
theorem dispatch_at_least_one_success (results : List Settled) :
    (results = [] → dispatch results = .error "No integrations configured") ∧
    (results ≠ [] →
      ((∃ v, dispatch results = .ok v) ↔ results.any isSuccessful = true)) ∧
    (results ≠ [] → results.all (fun r => !isSuccessful r) = true →
      dispatch results = .error ("All integrations failed: " ++
        String.intercalate ", " (results.map settledErrorMessage)) ∧
      (results.map settledErrorMessage).length = results.length) ∧
    (∀ v, results.find? isSuccessful = some (.fulfilled v) →
      dispatch results = .ok v) := by
  refine ⟨?_, ?_, ?_, ?_⟩
  · intro h; subst h; rfl
  · intro hne
    have hlen : ¬ results.length = 0 := by
      simpa [List.length_eq_zero] using hne
    constructor
    · rintro ⟨v, hv⟩
      rcases hf : results.find? isSuccessful with _ | s
      · simp [dispatch, hlen, hf] at hv
      · have hs := List.find?_some hf
        have hmem := List.mem_of_find?_eq_some hf
        exact List.any_eq_true.mpr ⟨s, hmem, hs⟩
    · intro hany
      obtain ⟨s, hmem, hs⟩ := List.any_eq_true.mp hany
      rcases hf : results.find? isSuccessful with _ | s'
      · exact absurd hs (List.find?_eq_none.mp hf s hmem)
      · have hs' := List.find?_some hf
        cases s' with
        | fulfilled v => exact ⟨v, by simp [dispatch, hlen, hf]⟩
        | rejected m => simp [isSuccessful] at hs'
  · intro hne hall
    have hlen : ¬ results.length = 0 := by
      simpa [List.length_eq_zero] using hne
    have hf : results.find? isSuccessful = none := by
      rw [List.find?_eq_none]
      intro x hx
      have hx' := List.all_eq_true.mp hall x hx
      simp at hx'
      simp [hx']
    refine ⟨by simp [dispatch, hlen, hf], by simp⟩
  · intro v hf
    have hlen : ¬ results.length = 0 := by
      cases results with
      | nil => simp [List.find?] at hf
      | cons a t => simp
    simp [dispatch, hlen, hf]

/-- Witness for C1: among 3 destinations where exactly one succeeds, the
successful destination's response (with its reference id and url) is
surfaced; when all 3 fail, the failure aggregates the three messages. -/
theorem dispatch_at_least_one_success_witness :
    dispatch [.fulfilled { success := false, error := some "bad config" },
              .fulfilled { success := true, issueId := some "42",
                           issueUrl := some "https://tracker/42" },
              .rejected (some "boom")] =
      .ok { success := true, issueId := some "42",
            issueUrl := some "https://tracker/42" } ∧
    dispatch [.rejected (some "a"),
              .fulfilled { success := false, error := some "b" },
              .rejected none] =
      .error "All integrations failed: a, b, Unknown error" := by
  constructor
  · exact (dispatch_at_least_one_success _).2.2.2 _ (by decide)
  · have h := (dispatch_at_least_one_success
      [.rejected (some "a"),
       .fulfilled { success := false, error := some "b" },
       .rejected none]).2.2.1 (by decide) (by decide)
    rw [h.1]
    decide

/-- One-step unfolding equation for the `makeRequest` retry loop. -/
theorem makeRequestGo_succ (responder : Nat → FetchOutcome) (i n : Nat) :
    makeRequestGo responder i (n + 1) =
      match attemptOutcome (responder i) with
      | .ok resp => ⟨.ok resp, 1, []⟩
      | .error e =>
        match n with
        | 0 => ⟨.error e, 1, []⟩
        | _ + 1 =>
          ⟨(makeRequestGo responder (i + 1) n).result,
           (makeRequestGo responder (i + 1) n).calls + 1,
           (2 ^ i * 1000) :: (makeRequestGo responder (i + 1) n).delays⟩ := by
  cases hA : attemptOutcome (responder i) with
  | ok resp => cases n <;> simp [makeRequestGo, hA]
  | error e =>
    cases n with
    | zero => simp [makeRequestGo, hA]
    | succ m => simp only [makeRequestGo, hA]

/-- When every attempt of the underlying call fails with the same error,
the retry loop makes exactly one call per unit of remaining budget and
surfaces that error. -/
theorem makeRequestGo_const_fail (responder : Nat → FetchOutcome) (e : String)
    (h : ∀ i, attemptOutcome (responder i) = .error e) :
    ∀ fuel i, 1 ≤ fuel →
      (makeRequestGo responder i fuel).result = .error e ∧
      (makeRequestGo responder i fuel).calls = fuel := by
  intro fuel
  induction fuel with
  | zero => intro i hf; exact absurd hf (by decide)
  | succ n ih =>
    intro i _
    rw [makeRequestGo_succ, h i]
    cases n with
    | zero => simp
    | succ m =>
      have hrec := ih (i + 1) (by omega)
      simp [hrec.1, hrec.2]

/-- Counterexample for C4: the claim says a successfully-returned
non-2xx response is not retried and a malformed destination response is
surfaced immediately as an error result. On the code, a constant 404
response with 3 configured retries leads to 3 underlying calls with
backoff delays between them (so the 4xx-class rejection *is* retried),
and a 2xx response with an unparseable JSON body makes the direct-mode
webhook submission report *success* (the parse failure is swallowed by
`.catch(() => ({}))`), not an error. -/
theorem non2xx_retried_counterexample :
    (makeRequest (fun _ => .ok resp404) 3).calls = 3 ∧
    (makeRequest (fun _ => .ok resp404) 3).delays = [1000, 2000] ∧
    webhookSubmitDirect (fun _ => .ok respOkMalformed) 3 =
      { success := true, issueId := none, issueUrl := none,
        message := some "Bug report submitted successfully via webhook",
        error := none } := by
  decide

/-- C4 (amended): a successfully-returned non-2xx response is treated
like a network-layer failure — retried up to the configured number of
attempts and then surfaced (not thrown) as an error SubmissionResult
carrying `HTTP <status>: <statusText>`; a malformed relay response in
proxy mode is not retried and is surfaced immediately, after a single
underlying call, as an error result carrying the parse error. -/
theorem non2xx_retried_then_surfaced (resp : HttpResponse)
    (hresp : resp.ok = false) (r : Nat) (hr : 1 ≤ r)
    (presp : HttpResponse) (hok : presp.ok = true)
    (m : String) (hjson : presp.jsonResult = .error m) :
    (makeRequest (fun _ => .ok resp) r).calls = r ∧
    webhookSubmitDirect (fun _ => .ok resp) r =
      { success := false, issueId := none, issueUrl := none, message := none,
        error := some ("HTTP " ++ toString resp.status ++ ": " ++
          resp.statusText) } ∧
    (makeRequest (fun _ => .ok presp)).calls = 1 ∧
    submitViaProxy (fun _ => .ok presp) =
      { success := false, issueId := none, issueUrl := none, message := none,
        error := some m } := by
  have hatt : ∀ i, attemptOutcome
      ((fun _ : Nat => (Except.ok resp : FetchOutcome)) i) =
      .error ("HTTP " ++ toString resp.status ++ ": " ++ resp.statusText) := by
    intro i; simp [attemptOutcome, hresp]
  have hmain := makeRequestGo_const_fail _ _ hatt r 0 hr
  have hone : makeRequestGo (fun _ : Nat => (Except.ok presp : FetchOutcome))
      0 3 = ⟨.ok presp, 1, []⟩ := by
    simp [makeRequestGo, attemptOutcome, hok]
  refine ⟨hmain.2, ?_, ?_, ?_⟩
  · simp [webhookSubmitDirect, makeRequest, hmain.1]
  · simp [makeRequest, hone]
  · simp [submitViaProxy, makeRequest, hone, hjson]

/-- Witness for C4 (amended), at a constant 404 response with 3 retries
and a 200 relay response whose body fails to parse. -/
theorem non2xx_retried_then_surfaced_witness :
    (makeRequest (fun _ => .ok resp404) 3).calls = 3 ∧
    webhookSubmitDirect (fun _ => .ok resp404) 3 =
      { success := false, issueId := none, issueUrl := none, message := none,
        error := some "HTTP 404: Not Found" } ∧
    (makeRequest (fun _ => .ok respOkMalformed)).calls = 1 ∧
    submitViaProxy (fun _ => .ok respOkMalformed) =
      { success := false, issueId := none, issueUrl := none, message := none,
        error := some "Unexpected token < in JSON" } := by
  have h := non2xx_retried_then_surfaced resp404 (by decide) 3 (by decide)
    respOkMalformed (by decide) "Unexpected token < in JSON" (by decide)
  refine ⟨h.1, ?_, h.2.2.1, h.2.2.2⟩
  rw [h.2.1]
  decide

/-- A pair with a given key in `searchParamsSet ps q m` for that same
key carries the new value. -/
theorem mem_searchParamsSet_self {ps : List (String × String)}
    {q v m : String} (h : (q, v) ∈ searchParamsSet ps q m) : v = m := by
  induction ps with
  | nil =>
    simp [searchParamsSet] at h
    exact h
  | cons hd t ih =>
    obtain ⟨k0, v0⟩ := hd
    by_cases hk : k0 = q
    · subst hk
      simp [searchParamsSet] at h
      exact h
    · simp [searchParamsSet, hk] at h
      rcases h with ⟨hq, _⟩ | hmem
      · exact absurd hq.symm hk
      · exact ih hmem

/-- Setting one query parameter leaves every other key's occurrences
untouched. -/
theorem filter_searchParamsSet_ne (ps : List (String × String))
    (k q v : String) (hkq : k ≠ q) :
    (searchParamsSet ps q v).filter (fun p => p.1 == k) =
      ps.filter (fun p => p.1 == k) := by
  induction ps with
  | nil => simp [searchParamsSet, Ne.symm hkq]
  | cons hd t ih =>
    obtain ⟨k0, v0⟩ := hd
    by_cases hk : k0 = q
    · subst hk
      simp [searchParamsSet, List.filter_cons, Ne.symm hkq]
      apply List.filter_congr
      intro a _
      by_cases h : a.1 = k
      · simp [h, hkq]
      · simp [h]
    · by_cases h2 : k0 = k <;>
        simp [searchParamsSet, hk, h2, hkq, List.filter_cons, ih]

/-- The redaction loop leaves every non-listed key's occurrences
untouched. -/
theorem filter_redactParams_ne (k : String) :
    ∀ (sp : List String) (ps : List (String × String)), k ∉ sp →
      (redactParams sp ps).filter (fun p => p.1 == k) =
        ps.filter (fun p => p.1 == k) := by
  intro sp
  induction sp with
  | nil => intro ps _; rfl
  | cons q rest ih =>
    intro ps hk
    have hkq : k ≠ q := by
      rintro rfl; exact hk (List.mem_cons_self _ _)
    have hkrest : k ∉ rest := fun h => hk (List.mem_cons_of_mem _ h)
    have hstep : redactParams (q :: rest) ps = redactParams rest
        (if searchParamsHas ps q then searchParamsSet ps q "[REDACTED]"
         else ps) := rfl
    rw [hstep, ih _ hkrest]
    by_cases hhas : searchParamsHas ps q
    · simp only [hhas, if_true]
      exact filter_searchParamsSet_ne ps k q _ hkq
    · simp [hhas]

/-- After the redaction loop, every surviving pair whose key is in the
sensitive list carries the redaction marker. -/
theorem redactParams_mem_sensitive (k v : String) :
    ∀ (sp : List String) (ps : List (String × String)),
      (k, v) ∈ redactParams sp ps → k ∈ sp → v = "[REDACTED]" := by
  intro sp
  induction sp with
  | nil => intro ps _ hk; cases hk
  | cons q rest ih =>
    intro ps hmem hk
    have hstep : redactParams (q :: rest) ps = redactParams rest
        (if searchParamsHas ps q then searchParamsSet ps q "[REDACTED]"
         else ps) := rfl
    rw [hstep] at hmem
    by_cases hkrest : k ∈ rest
    · exact ih _ hmem hkrest
    · have hkq : k = q := by
        rcases List.mem_cons.mp hk with h | h
        · exact h
        · exact absurd h hkrest
      subst hkq
      have h1 : (k, v) ∈ (redactParams rest
          (if searchParamsHas ps k then searchParamsSet ps k "[REDACTED]"
           else ps)).filter (fun p => p.1 == k) :=
        List.mem_filter.mpr ⟨hmem, by simp⟩
      rw [filter_redactParams_ne k rest _ hkrest] at h1
      have hmem' := (List.mem_filter.mp h1).1
      by_cases hhas : searchParamsHas ps k
      · rw [if_pos hhas] at hmem'
        exact mem_searchParamsSet_self hmem'
      · rw [if_neg hhas] at hmem'
        refine absurd ?_ hhas
        exact List.any_eq_true.mpr ⟨(k, v), hmem', by simp⟩

/-- Counterexample for C5: the claim says a query parameter is redacted
when its key matches the deny-list by case-insensitive substring match.
The code instead uses `searchParams.has(param)`, an exact case-sensitive
full-key test: `api_key` (which contains the listed entry `key`) and
`Token` (which differs from the listed `token` only by case) both match
the claim's matching rule — as the code's own substring matcher
`isSensitiveHeader` confirms — yet their values survive sanitization
unredacted. -/
theorem sanitizeUrl_substring_counterexample :
    sanitizeUrl defaultSensitiveParams "https://x/y?api_key=abc" =
      "https://x/y?api_key=abc" ∧
    isSensitiveHeader defaultSensitiveParams "api_key" = true ∧
    sanitizeUrl defaultSensitiveParams "https://x/y?Token=abc" =
      "https://x/y?Token=abc" ∧
    isSensitiveHeader defaultSensitiveParams "Token" = true := by
  decide

/-- C5 (amended): for every URL that parses, sanitizeUrl replaces the
value of every query parameter whose key exactly (case-sensitively)
equals an entry of the sensitive-parameter list with the redaction
marker, while every key not in the list keeps all its occurrences —
keys, values and order — untouched. -/
theorem sanitizeUrl_exact_key_redaction (sensitiveParams : List String)
    (url : String) (u : UrlObj) (h : parseUrl url = some u) :
    sanitizeUrl sensitiveParams url =
      renderUrl { u with params := redactParams sensitiveParams u.params } ∧
    (∀ k v, (k, v) ∈ redactParams sensitiveParams u.params →
      k ∈ sensitiveParams → v = "[REDACTED]") ∧
    (∀ k, k ∉ sensitiveParams →
      (redactParams sensitiveParams u.params).filter (fun p => p.1 == k) =
        u.params.filter (fun p => p.1 == k)) := by
  refine ⟨by simp [sanitizeUrl, h], ?_, ?_⟩
  · intro k v hm hk
    exact redactParams_mem_sensitive k v _ _ hm hk
  · intro k hk
    exact filter_redactParams_ne k _ _ hk

/-- Witness for C5 (amended), at the default policy and the spec's
example URL. -/
theorem sanitizeUrl_exact_key_redaction_witness :
    sanitizeUrl defaultSensitiveParams "https://x/y?token=abc&data=safe" =
      renderUrl { scheme := "https", host := "x", path := "/y",
                  params := redactParams defaultSensitiveParams
                    [("token", "abc"), ("data", "safe")] } := by
  have h := sanitizeUrl_exact_key_redaction defaultSensitiveParams
    "https://x/y?token=abc&data=safe"
    { scheme := "https", host := "x", path := "/y",
      params := [("token", "abc"), ("data", "safe")] } (by decide)
  exact h.1

/-- Counterexample for C8: the claim quantifies over every configured
sensitive-parameter list, but the code's hardcoded `authorization` and
`cookie` checks sit inside the `some(...)` callback of
`isSensitiveHeader`, so with an empty configured list nothing is ever
sensitive: a recorded NetworkEntry then carries both a `Cookie` and an
`Authorization` response header. -/
theorem sensitiveHeader_empty_list_counterexample :
    isSensitiveHeader [] "Cookie" = false ∧
    (wrappedFetch emptyListOpts [] cookieResponseCall).2.map
        (·.responseHeaders) =
      [some [("Cookie", "secret"), ("Authorization", "Bearer t")]] := by
  decide

/-- C8 (amended): whenever the configured sensitive-parameter list is
non-empty, every header surviving the request-header or response-header
filter has a name that is not `authorization` or `cookie` in any casing
and does not contain (case-insensitively) any entry of the configured
list; matching headers are dropped entirely, not masked. -/
theorem filteredHeaders_never_sensitive (sensitiveParams : List String)
    (hne : sensitiveParams ≠ []) (headers : List (String × String))
    (k v : String)
    (hmem : (k, v) ∈ (extractHeaders sensitiveParams headers).getD [] ∨
            (k, v) ∈ headersToObject sensitiveParams headers) :
    jsToLower k ≠ "authorization" ∧ jsToLower k ≠ "cookie" ∧
    ∀ p ∈ sensitiveParams, jsIncludes (jsToLower k) (jsToLower p) = false := by
  have hsens : isSensitiveHeader sensitiveParams k = false := by
    rcases hmem with h | h
    · have hx : (k, v) ∈ headers.filter
          (fun h => !isSensitiveHeader sensitiveParams h.1) := by
        by_cases hlen : (headers.filter
            (fun h => !isSensitiveHeader sensitiveParams h.1)).length > 0
        · simpa [extractHeaders, hlen] using h
        · simp [extractHeaders, hlen] at h
      have := (List.mem_filter.mp hx).2
      simpa using this
    · have := (List.mem_filter.mp h).2
      simpa using this
  unfold isSensitiveHeader at hsens
  simp only [List.any_eq_false] at hsens
  obtain ⟨p0, hp0⟩ := List.exists_mem_of_ne_nil sensitiveParams hne
  have h0 := hsens p0 hp0
  simp at h0
  refine ⟨h0.1.2, h0.2, ?_⟩
  intro p hp
  have hp' := hsens p hp
  simp at hp'
  exact hp'.1.1

/-- Witness for C8 (amended): with the default list, a surviving
`Content-Type` header is neither `authorization` in lower case nor a
substring match for the listed entry `token`. -/
theorem filteredHeaders_never_sensitive_witness :
    jsToLower "Content-Type" ≠ "authorization" ∧
    jsIncludes (jsToLower "Content-Type") (jsToLower "token") = false := by
  have h := filteredHeaders_never_sensitive defaultSensitiveParams
    (by decide) [("Content-Type", "application/json")]
    "Content-Type" "application/json" (Or.inl (by decide))
  exact ⟨h.1, h.2.2 "token" (by decide)⟩

/-- Counterexample for C10: the claim says a network-layer failure is
recorded with status none (no status code). The `catch` branch of the
fetch wrapper writes `status: 0` — the status field of the recorded
entry is present and equal to 0, not absent. -/
theorem fetch_error_status_zero_counterexample :
    (wrappedFetch defaultCaptureOptions [] failingFetchCall).2.map
      (·.status) = [some 0] ∧
    (wrappedFetch defaultCaptureOptions [] failingFetchCall).2.map
      (·.status) ≠ [(none : Option Nat)] := by
  decide

/-- C10 (amended): for every fetch call whose URL is not excluded and
that fails at the network layer, the wrapper records a NetworkEntry with
status 0 (the sentinel the formatter renders as absent), the error
message, no size and no response headers, and re-throws the original
error unchanged. -/
theorem wrappedFetch_error_path (opts : CaptureOptions)
    (buffer : List NetworkRequestEntry) (call : FetchCall) (e : String)
    (hout : call.outcome = .error e)
    (hexc : shouldExcludeUrl opts call.url = false) :
    wrappedFetch opts buffer call =
      (.error e,
       addNetworkRequest opts.maxNetworkRequests buffer
         { timestamp := call.startTime
           method := call.method
           url := sanitizeUrl opts.sensitiveParams call.url
           status := some 0
           duration := some call.duration
           size := none
           requestHeaders :=
             if opts.includeRequestHeaders then
               match call.requestHeadersRaw with
               | some hs => extractHeaders opts.sensitiveParams hs
               | none => none
             else none
           responseHeaders := none
           error := some e }) := by
  simp [wrappedFetch, hexc, hout]

/-- Witness for C10 (amended): the failing sample call is recorded with
its error message and the original error is re-thrown. -/
theorem wrappedFetch_error_path_witness :
    (wrappedFetch defaultCaptureOptions [] failingFetchCall).1 =
      .error "Failed to fetch" ∧
    (wrappedFetch defaultCaptureOptions [] failingFetchCall).2.map
      (·.error) = [some "Failed to fetch"] := by
  have h := wrappedFetch_error_path defaultCaptureOptions [] failingFetchCall
    "Failed to fetch" (by decide) (by decide)
  rw [h]
  decide

/-- Reading a cell of a freshly extended heap below the allocation point
is unchanged. -/
theorem heapRead_alloc_lt {α : Type} (h : Heap α) (v : List α) (r : HRef)
    (hr : r < h.length) :
    heapRead (heapAlloc h v).1 r = heapRead h r := by
  simp [heapRead, heapAlloc, List.getElem?_append_left hr]

/-- Reading the freshly allocated cell yields its contents. -/
theorem heapRead_concat_self {α : Type} (h : Heap α) (v : List α) :
    heapRead (h ++ [v]) h.length = v := by
  simp [heapRead, List.getElem?_concat_length]

/-- Writing one cell leaves every other cell unchanged. -/
theorem heapRead_write_ne {α : Type} (h : Heap α) (r r' : HRef) (v : List α)
    (hne : r ≠ r') :
    heapRead (heapWrite h r' v) r = heapRead h r := by
  simp [heapRead, heapWrite, List.getElem?_set_ne (Ne.symm hne)]

/-- C9: the buffer accessors and the `captureReport` snapshot return
copies, never the live buffer. For any valid session buffer: the
returned reference is a different cell from the internal one; its
contents equal the buffer contents at the time of the call; mutating the
returned cell leaves the internal buffer unchanged; a push performed
after the snapshot leaves the snapshot's contents unchanged; and the
`captureReport` snapshot is the same copying operation. -/
theorem buffer_reads_are_defensive_copies (α : Type) (s : BufferState α)
    (hvalid : s.ref < s.heap.length) :
    ((getBufferCopy s).1 ≠ (getBufferCopy s).2.ref) ∧
    (heapRead (getBufferCopy s).2.heap (getBufferCopy s).1 =
      heapRead s.heap s.ref) ∧
    (∀ v, heapRead (heapWrite (getBufferCopy s).2.heap (getBufferCopy s).1 v)
        (getBufferCopy s).2.ref = heapRead s.heap s.ref) ∧
    (∀ (entry : α) (maxN : Nat),
      heapRead (pushBuffer maxN (getBufferCopy s).2 entry).heap
        (getBufferCopy s).1 = heapRead s.heap s.ref) ∧
    captureReportSnapshot s = getBufferCopy s := by
  have hv0 : heapRead (s.heap ++ [heapRead s.heap s.ref]) s.heap.length =
      heapRead s.heap s.ref := heapRead_concat_self _ _
  have hw : ∀ X : List α,
      heapRead (heapWrite (s.heap ++ [heapRead s.heap s.ref]) s.ref X)
        s.heap.length = heapRead s.heap s.ref := by
    intro X
    rw [heapRead_write_ne (s.heap ++ [heapRead s.heap s.ref])
      s.heap.length s.ref X (ne_of_gt hvalid)]
    exact hv0
  refine ⟨?_, ?_, ?_, ?_, rfl⟩
  · show s.heap.length ≠ s.ref
    exact ne_of_gt hvalid
  · show heapRead (s.heap ++ [heapRead s.heap s.ref]) s.heap.length =
      heapRead s.heap s.ref
    exact hv0
  · intro v
    show heapRead (heapWrite (s.heap ++ [heapRead s.heap s.ref])
      s.heap.length v) s.ref = heapRead s.heap s.ref
    rw [heapRead_write_ne (s.heap ++ [heapRead s.heap s.ref])
      s.ref s.heap.length v (ne_of_lt hvalid)]
    exact heapRead_alloc_lt s.heap (heapRead s.heap s.ref) s.ref hvalid
  · intro entry maxN
    show heapRead (pushBuffer maxN
      ⟨s.heap ++ [heapRead s.heap s.ref], s.ref⟩ entry).heap s.heap.length =
      heapRead s.heap s.ref
    unfold pushBuffer
    dsimp only
    split
    · rw [heapRead_alloc_lt _ _ _ (by simp [heapWrite])]
      exact hw _
    · exact hw _

/-- Witness for C9, on a session whose single live buffer holds two
entries: the snapshot reference differs from the live one, and the
snapshot still reads `[1, 2]` after a later push. -/
theorem buffer_reads_are_defensive_copies_witness :
    (getBufferCopy (⟨[[1, 2]], 0⟩ : BufferState Nat)).1 ≠
      (getBufferCopy (⟨[[1, 2]], 0⟩ : BufferState Nat)).2.ref ∧
    heapRead (pushBuffer 5
        (getBufferCopy (⟨[[1, 2]], 0⟩ : BufferState Nat)).2 7).heap
      (getBufferCopy (⟨[[1, 2]], 0⟩ : BufferState Nat)).1 = [1, 2] := by
  have h := buffer_reads_are_defensive_copies Nat ⟨[[1, 2]], 0⟩ (by decide)
  refine ⟨h.1, ?_⟩
  rw [h.2.2.2.1 7 5]
  decide

end Bugs
